import Mathlib

/-!
Shallow embedding of the session/transaction lifecycle manager, the retry
engine, the circuit breaker, the batched query execution and the result
statistics parsing of the nodestream neo4j plugin
(src/nodestream_plugin_neo4j/enhanced_components.py, query_executor.py,
result.py, query.py), together with theorems settling the frozen claims
about them.

Modelling conventions:
 * Python timestamps (datetime.now(), total_seconds() arithmetic) are
   modelled as integers supplied explicitly to each operation; only order
   and difference comparisons are used by the code under study.
 * Python floats used for delays are modelled as rationals: the operations
   involved (multiplication by small powers of two, by small naturals, and
   min) are exact.
 * Python exceptions are modelled as a value with the observable parts the
   code inspects: the message string and whether the exception is an
   instance of one of the configured retryable exception classes.
 * Dictionaries keyed by strings are modelled either as total functions
   with a default (the circuit breaker per-key tables) or as ordered
   association lists (the session table, JSON-like rows).
-/

namespace N4J

/-- Model of a Python exception as observed by the retry logic: its string
rendering and the result of the isinstance test against TransientError
(the sole member of the default error_types list). -/
structure PyException where
  message : String
  transient : Bool
deriving DecidableEq, Repr

/-- Python substring containment (the `sub in hay` test) on character
lists: sub is a prefix of hay or occurs in its tail. -/
def strInList (sub : List Char) : List Char → Bool
  | [] => sub.isPrefixOf []
  | c :: rest => sub.isPrefixOf (c :: rest) || strInList sub rest

/-- Python substring containment on strings: strIn sub hay models the
Python expression sub in hay. -/
def strIn (sub hay : String) : Bool :=
  strInList sub.toList hay.toList

/-- Circuit breaker per-key state strings "closed", "open", "half-open"
from enhanced_components.py. -/
inductive CBState where
  | closed
  | opened
  | halfOpen
deriving DecidableEq, Repr

/-- CircuitBreaker (enhanced_components.py lines 82-135): per-key failure
timestamp lists and per-key state. The failures dict is modelled as a
total function defaulting to [] (absence of a key and presence with an
empty list are indistinguishable to every read the class performs); the
state dict keeps its partiality (get with default "closed"). -/
structure CircuitBreaker where
  failure_threshold : Nat := 5
  reset_timeout : Int := 60
  half_open_timeout : Int := 30
  failures : String → List Int := fun _ => []
  state : String → Option CBState := fun _ => none

/-- CircuitBreaker.record_failure: append now to the key's list, prune
entries not strictly newer than now - reset_timeout, set the key's state
to open when the pruned length reaches failure_threshold. -/
def CircuitBreaker.record_failure (cb : CircuitBreaker) (operation_id : String)
    (now : Int) : CircuitBreaker :=
  let pruned := (cb.failures operation_id ++ [now]).filter
    (fun f => now - f < cb.reset_timeout)
  { cb with
    failures := Function.update cb.failures operation_id pruned
    state :=
      if cb.failure_threshold ≤ pruned.length then
        Function.update cb.state operation_id (some CBState.opened)
      else cb.state }

/-- CircuitBreaker.record_success: drop the key's failure list and set its
state to closed. -/
def CircuitBreaker.record_success (cb : CircuitBreaker) (operation_id : String) :
    CircuitBreaker :=
  { cb with
    failures := Function.update cb.failures operation_id []
    state := Function.update cb.state operation_id (some CBState.closed) }

/-- CircuitBreaker.can_execute: closed gives true; open gives true (and
moves the key to half-open) exactly when the key has a most recent failure
strictly older than half_open_timeout, else false; half-open gives true.
Returns the answer together with the possibly updated breaker. -/
def CircuitBreaker.can_execute (cb : CircuitBreaker) (operation_id : String)
    (now : Int) : Bool × CircuitBreaker :=
  match (cb.state operation_id).getD CBState.closed with
  | CBState.closed => (true, cb)
  | CBState.opened =>
    match (cb.failures operation_id).getLast? with
    | some last =>
      if cb.half_open_timeout < now - last then
        (true, { cb with
          state := Function.update cb.state operation_id (some CBState.halfOpen) })
      else (false, cb)
    | none => (false, cb)
  | CBState.halfOpen => (true, cb)

/-- RetryStrategy enum (enhanced_components.py lines 66-70). -/
inductive RetryStrategy where
  | exponential
  | linear
  | constant
deriving DecidableEq, Repr

/-- RetryConfig (enhanced_components.py lines 72-80). The error_types list
of exception classes is modelled as a list of isinstance tests; the
default [TransientError] becomes the test of the transient flag. -/
structure RetryConfig where
  strategy : RetryStrategy := RetryStrategy.exponential
  max_retries : Nat := 3
  initial_delay : Rat := 1
  max_delay : Rat := 30
  error_types : List (PyException → Bool) := [fun e => e.transient]
  retry_on_strings : List String := ["Neo.TransientError.Transaction.Terminated"]

/-- EnhancedTransactionManager state relevant to the verified claims: its
retry configuration. The per-call circuit breaker and counters are
threaded explicitly through execute_in_transaction below. -/
structure EnhancedTransactionManager where
  _retry_config : RetryConfig := {}

/-- EnhancedTransactionManager._get_retry_delay (lines 344-353): strategy
formula clamped to max_delay. -/
def EnhancedTransactionManager._get_retry_delay (m : EnhancedTransactionManager)
    (retry_count : Nat) : Rat :=
  let delay :=
    match m._retry_config.strategy with
    | RetryStrategy.exponential =>
        m._retry_config.initial_delay * ((2 : Rat) ^ retry_count)
    | RetryStrategy.linear =>
        m._retry_config.initial_delay * ((retry_count : Rat) + 1)
    | RetryStrategy.constant => m._retry_config.initial_delay
  min delay m._retry_config.max_delay

/-- EnhancedTransactionManager._should_retry (lines 355-363): error type
test, then substring test of the message against retry_on_strings. -/
def EnhancedTransactionManager._should_retry (m : EnhancedTransactionManager)
    (error : PyException) : Bool :=
  m._retry_config.error_types.any (fun t => t error) ||
    m._retry_config.retry_on_strings.any (fun s => strIn s error.message)

/-- The message of the exception raised by the unreachable circuit-breaker
guard of execute_in_transaction (line 398). -/
def blockedExc : PyException :=
  { message := "Transaction execution is currently blocked due to repeated failures"
    transient := false }

/-- Terminal outcome of execute_in_transaction when it raises: either an
exception from an attempt re-raised as-is, or the synthetic
"Transaction failed after n retries" exception of line 464. -/
inductive TxErr where
  | orig (e : PyException)
  | exhausted (n : Nat)
deriving DecidableEq, Repr

/-- Session counters touched by execute_in_transaction through
update_session_metrics, together with an instrumentation field counting
how often the can_execute guard of line 397 answered false (used to state
that the blocked branch is unreachable). -/
structure TxCounters where
  transactions_committed : Nat := 0
  transactions_rolled_back : Nat := 0
  blocked_hits : Nat := 0
deriving DecidableEq, Repr

/-- Retry loop of EnhancedTransactionManager.execute_in_transaction
(lines 394-464), for a known session. The attempt function gives the
outcome of the n-th transaction attempt (begin/run/consume/commit as one
remote interaction): a result list or the exception raised. monOn is the
conjunction monitor present, monitoring_config present and
collect_transaction_metrics, which gates the two session counters. key is
the breaker key "transaction_<id>"; tm gives the timestamp of iteration n.
fuel is max_retries + 1 - retries, so fuel = 0 is the loop exit of line
462 (record breaker failure, raise the retries-exhausted exception). -/
def txLoop {R : Type} (m : EnhancedTransactionManager)
    (attempt : Nat → Except PyException (List R)) (monOn : Bool)
    (key : String) (tm : Nat → Int) :
    Nat → Nat → CircuitBreaker → TxCounters →
    Except TxErr (List R) × CircuitBreaker × TxCounters
  | retries, 0, cb, cnt =>
    (Except.error (TxErr.exhausted m._retry_config.max_retries),
      cb.record_failure key (tm retries), cnt)
  | retries, fuel + 1, cb, cnt =>
    let ce := cb.can_execute key (tm retries)
    let cnt := if ce.1 then cnt
      else { cnt with blocked_hits := cnt.blocked_hits + 1 }
    let attemptResult : Except PyException (List R) :=
      if ce.1 then attempt retries else Except.error blockedExc
    match attemptResult with
    | Except.ok results =>
      let cnt := if monOn then
          { cnt with transactions_committed := cnt.transactions_committed + 1 }
        else cnt
      (Except.ok results, ce.2.record_success key, cnt)
    | Except.error e =>
      let shouldRetry :=
        decide (retries < m._retry_config.max_retries) && m._should_retry e
      let cnt := if monOn then
          { cnt with transactions_rolled_back := cnt.transactions_rolled_back + 1 }
        else cnt
      if shouldRetry then
        txLoop m attempt monOn key tm (retries + 1) fuel ce.2 cnt
      else
        (Except.error (TxErr.orig e), ce.2.record_failure key (tm retries), cnt)

/-- EnhancedTransactionManager.execute_in_transaction (lines 365-464): the
retry_on_errors argument, when truthy (some nonempty list), overwrites the
manager-wide retry_config.retry_on_strings before the loop runs; the loop
starts at retries = 0 with fuel max_retries + 1 (the while guard
retries <= max_retries). Returns the outcome, the breaker, the counters
and the manager as mutated by the call. -/
def EnhancedTransactionManager.execute_in_transaction {R : Type}
    (m : EnhancedTransactionManager)
    (attempt : Nat → Except PyException (List R)) (monOn : Bool)
    (key : String) (tm : Nat → Int) (cb : CircuitBreaker)
    (retry_on_errors : Option (List String)) :
    (Except TxErr (List R) × CircuitBreaker × TxCounters) ×
      EnhancedTransactionManager :=
  let m :=
    match retry_on_errors with
    | some l =>
      if l.isEmpty then m
      else { m with _retry_config := { m._retry_config with retry_on_strings := l } }
    | none => m
  (txLoop m attempt monOn key tm 0 (m._retry_config.max_retries + 1) cb {}, m)

/-- Predicate: the loop stops at attempt n, because the attempt succeeds
or because its exception is not retried (budget spent or not retryable). -/
def stopAt {R : Type} (m : EnhancedTransactionManager)
    (attempt : Nat → Except PyException (List R)) (n : Nat) : Bool :=
  match attempt n with
  | Except.ok _ => true
  | Except.error e =>
    !(decide (n < m._retry_config.max_retries) && m._should_retry e)

/-- Index of the attempt at which the loop stops, scanning fuel attempts
from start. -/
def stopIndex {R : Type} (m : EnhancedTransactionManager)
    (attempt : Nat → Except PyException (List R)) (start : Nat) : Nat → Nat
  | 0 => start
  | fuel + 1 =>
    if stopAt m attempt start then start
    else stopIndex m attempt (start + 1) fuel

/-- SessionStatus enum (enhanced_components.py lines 20-27). -/
inductive SessionStatus where
  | created
  | active
  | idle
  | closing
  | closed
  | error
deriving DecidableEq, Repr

/-- SessionState (enhanced_components.py lines 37-51), with the session
handle opaque (a number standing for the AsyncSession object identity)
and the metadata dict omitted (never read by the verified operations). -/
structure SessionState where
  id : String
  session : Nat
  database : Option String
  created_at : Int
  status : SessionStatus
  last_used_at : Int
  queries_executed : Nat := 0
  transactions_started : Nat := 0
  transactions_committed : Nat := 0
  transactions_rolled_back : Nat := 0
  errors : List String := []
deriving DecidableEq, Repr

/-- EnhancedSessionManager state (lines 140-162): configuration and the
insertion-ordered session table keyed by session id, plus its own circuit
breaker (used with the fixed key "session_creation"). The background
cleanup task and the monitoring sink are outside the claims. -/
structure EnhancedSessionManager where
  max_sessions : Nat := 100
  session_timeout : Int := 300
  sessions : List (String × SessionState) := []
  cb : CircuitBreaker := {}

/-- Failure modes of EnhancedSessionManager.get_session as written: the
circuit-breaker guard exception of line 206, or a driver.session failure
re-raised at line 242. The method has no other failure path; in
particular it never checks max_sessions. -/
inductive GetSessionError where
  | blocked
  | driver (e : String)
deriving DecidableEq, Repr

/-- EnhancedSessionManager.get_session (lines 198-242). driver_session is
the outcome of the awaited driver.session call; session_id is the fresh
generated id; now is the creation timestamp. On success the new
SessionState (status CREATED) is appended to the table and breaker
success is recorded; on driver failure breaker failure is recorded and
the exception re-raised. -/
def EnhancedSessionManager.get_session (mgr : EnhancedSessionManager)
    (driver_session : Except String Nat) (session_id : String)
    (database : Option String) (now : Int) :
    Except GetSessionError Nat × EnhancedSessionManager :=
  let ce := mgr.cb.can_execute "session_creation" now
  let mgr := { mgr with cb := ce.2 }
  if ce.1 then
    match driver_session with
    | Except.error e =>
      (Except.error (GetSessionError.driver e),
        { mgr with cb := mgr.cb.record_failure "session_creation" now })
    | Except.ok session =>
      let st : SessionState :=
        { id := session_id, session := session, database := database
          created_at := now, status := SessionStatus.created, last_used_at := now }
      (Except.ok session,
        { mgr with
          sessions := mgr.sessions ++ [(session_id, st)]
          cb := mgr.cb.record_success "session_creation" })
  else
    (Except.error GetSessionError.blocked, mgr)

/-- Observable outcome of EnhancedSessionManager.close_session: the
unknown-handle warning return of lines 252-254, a normal return with the
final state of the closed entry, or a re-raised close failure together
with the final state of the entry. -/
inductive CloseOutcome where
  | unknown_warned
  | ok_closed (final : SessionState)
  | raised (e : String) (final : SessionState)
deriving DecidableEq, Repr

/-- EnhancedSessionManager.close_session (lines 244-282): find the first
tracked entry whose session handle equals the argument; if none, log a
warning and return. Otherwise mark CLOSING, run the underlying close
(close_result), mark CLOSED on success or ERROR with the error string
appended on failure, and in both cases remove the entry from the table
(the finally block of line 280). -/
def EnhancedSessionManager.close_session (mgr : EnhancedSessionManager)
    (session : Nat) (close_result : Except String Unit) :
    CloseOutcome × EnhancedSessionManager :=
  match mgr.sessions.find? (fun p => p.2.session == session) with
  | none => (CloseOutcome.unknown_warned, mgr)
  | some (sid, st) =>
    let st := { st with status := SessionStatus.closing }
    match close_result with
    | Except.ok _ =>
      let st := { st with status := SessionStatus.closed }
      (CloseOutcome.ok_closed st,
        { mgr with sessions := mgr.sessions.filter (fun p => p.1 ≠ sid) })
    | Except.error e =>
      let st := { st with status := SessionStatus.error, errors := st.errors ++ [e] }
      (CloseOutcome.raised e st,
        { mgr with sessions := mgr.sessions.filter (fun p => p.1 ≠ sid) })

/-- Chunk list built by Neo4jQueryExecutor.execute_batch
(query_executor.py lines 131-132): the slices batch[i : i + batch_size]
for i in range(0, len(batch), batch_size). -/
def execute_batch_chunks {α : Type} (batch : List α) (batch_size : Nat) :
    List (List α) :=
  (List.range ((batch.length + batch_size - 1) / batch_size)).map
    (fun i => (batch.drop (i * batch_size)).take batch_size)

/-- Chunk execution loop of execute_batch (lines 131-146): call the chunk
executor on each chunk in order, collecting results; the first failure
aborts the loop and propagates. Also returns the trace of (index, chunk)
calls actually issued, in order. -/
def runChunks {α R : Type} (exec : Nat → List α → Except PyException R) :
    Nat → List (List α) → List R → List (Nat × List α) →
    Except PyException (List R) × List (Nat × List α)
  | _, [], acc, tr => (Except.ok acc.reverse, tr)
  | i, c :: rest, acc, tr =>
    match exec i c with
    | Except.ok r => runChunks exec (i + 1) rest (r :: acc) (tr ++ [(i, c)])
    | Except.error e => (Except.error e, tr ++ [(i, c)])

/-- Neo4jQueryExecutor.execute_batch (query_executor.py lines 118-146)
for an already resolved positive batch_size: chunk the batch and execute
the chunks in order through exec (each call standing for one
execute_query invocation, that is one statement execution). -/
def execute_batch {α R : Type} (batch : List α) (batch_size : Nat)
    (exec : Nat → List α → Except PyException R) :
    Except PyException (List R) × List (Nat × List α) :=
  runChunks exec 0 (execute_batch_chunks batch batch_size) [] []

/-- JSON-like value inside a record row returned by the driver, as far as
the dacite decoding of ApocBatchResponse distinguishes values: integers,
booleans, strings and nested string-keyed dictionaries. -/
inductive JValue where
  | int (n : Int)
  | bool (b : Bool)
  | str (s : String)
  | dict (entries : List (String × JValue))

/-- Row of a record: an ordered string-keyed dictionary of values. -/
abbrev Row := List (String × JValue)

/-- ApocUpdateStatistics (query.py lines 5-15): every field has default 0. -/
structure ApocUpdateStatistics where
  relationshipsDeleted : Int := 0
  relationshipsCreated : Int := 0
  nodesDeleted : Int := 0
  nodesCreated : Int := 0
  labelsRemoved : Int := 0
  labelsAdded : Int := 0
  propertiesSet : Int := 0
deriving DecidableEq, Repr

/-- ApocBatchResponse (query.py lines 18-31): every field has a default,
so a dict missing any of them still decodes. -/
structure ApocBatchResponse where
  batches : Int := 0
  total : Int := 0
  timeTaken : Int := 0
  committedOperations : Int := 0
  failedOperations : Int := 0
  failedBatches : Int := 0
  retries : Int := 0
  errorMessages : Row := []
  wasTerminated : Bool := false
  updateStatistics : ApocUpdateStatistics := {}

/-- Decoding failure of dacite.from_dict: a present field whose value has
the wrong type for the declared field type. -/
inductive DecodeErr where
  | wrong_type (field_name : String)
deriving DecidableEq, Repr

/-- Field extraction for an int-typed dataclass field under dacite: a
missing key takes the dataclass default, a present int is accepted, any
other present value raises. (Python bools, being an int subclass, would
also pass the isinstance test; no claim depends on this corner and the
rows under study never put booleans in int fields.) -/
def getIntField (data : Row) (name : String) (dflt : Int) :
    Except DecodeErr Int :=
  match data.lookup name with
  | none => Except.ok dflt
  | some (JValue.int n) => Except.ok n
  | some _ => Except.error (DecodeErr.wrong_type name)

/-- Field extraction for a bool-typed dataclass field under dacite. -/
def getBoolField (data : Row) (name : String) (dflt : Bool) :
    Except DecodeErr Bool :=
  match data.lookup name with
  | none => Except.ok dflt
  | some (JValue.bool b) => Except.ok b
  | some _ => Except.error (DecodeErr.wrong_type name)

/-- Field extraction for the dict[str, Any] field errorMessages. -/
def getDictField (data : Row) (name : String) (dflt : Row) :
    Except DecodeErr Row :=
  match data.lookup name with
  | none => Except.ok dflt
  | some (JValue.dict m) => Except.ok m
  | some _ => Except.error (DecodeErr.wrong_type name)

/-- dacite.from_dict(ApocUpdateStatistics, data): each field defaults when
missing and raises on a wrong-typed present value. -/
def from_dict_ApocUpdateStatistics (data : Row) :
    Except DecodeErr ApocUpdateStatistics := do
  let relationshipsDeleted ← getIntField data "relationshipsDeleted" 0
  let relationshipsCreated ← getIntField data "relationshipsCreated" 0
  let nodesDeleted ← getIntField data "nodesDeleted" 0
  let nodesCreated ← getIntField data "nodesCreated" 0
  let labelsRemoved ← getIntField data "labelsRemoved" 0
  let labelsAdded ← getIntField data "labelsAdded" 0
  let propertiesSet ← getIntField data "propertiesSet" 0
  Except.ok
    { relationshipsDeleted := relationshipsDeleted
      relationshipsCreated := relationshipsCreated
      nodesDeleted := nodesDeleted
      nodesCreated := nodesCreated
      labelsRemoved := labelsRemoved
      labelsAdded := labelsAdded
      propertiesSet := propertiesSet }

/-- dacite.from_dict(ApocBatchResponse, data), as called at result.py
line 174: every declared field has a default, so missing keys are filled
silently; only wrong-typed present values raise. -/
def from_dict_ApocBatchResponse (data : Row) :
    Except DecodeErr ApocBatchResponse := do
  let batches ← getIntField data "batches" 0
  let total ← getIntField data "total" 0
  let timeTaken ← getIntField data "timeTaken" 0
  let committedOperations ← getIntField data "committedOperations" 0
  let failedOperations ← getIntField data "failedOperations" 0
  let failedBatches ← getIntField data "failedBatches" 0
  let retries ← getIntField data "retries" 0
  let errorMessages ← getDictField data "errorMessages" []
  let wasTerminated ← getBoolField data "wasTerminated" false
  let updateStatistics ←
    match data.lookup "updateStatistics" with
    | none => Except.ok ({} : ApocUpdateStatistics)
    | some (JValue.dict m) => from_dict_ApocUpdateStatistics m
    | some _ => Except.error (DecodeErr.wrong_type "updateStatistics")
  Except.ok
    { batches := batches
      total := total
      timeTaken := timeTaken
      committedOperations := committedOperations
      failedOperations := failedOperations
      failedBatches := failedBatches
      retries := retries
      errorMessages := errorMessages
      wasTerminated := wasTerminated
      updateStatistics := updateStatistics }

/-- Summary counters of the driver result (the fields result.py reads on
the non-APOC path). -/
structure SummaryCounters where
  nodes_created : Int := 0
  nodes_deleted : Int := 0
  relationships_created : Int := 0
  relationships_deleted : Int := 0
  properties_set : Int := 0
  labels_added : Int := 0
  labels_removed : Int := 0
  constraints_added : Int := 0
  constraints_removed : Int := 0
  indexes_added : Int := 0
  indexes_removed : Int := 0
deriving DecidableEq, Repr

/-- ResultSummary fields read by Neo4jQueryStatistics.from_result; the
notifications list is omitted (no verified claim touches it). -/
structure ResultSummary where
  result_available_after : Int
  result_consumed_after : Int
  query_type : String
  counters : SummaryCounters
deriving DecidableEq, Repr

/-- Query (query.py lines 63-67). -/
structure Query where
  query_statement : String
  parameters : Row := []
  is_apoc : Bool := false

/-- EagerResult as consumed by Neo4jResult: records, keys, summary. -/
structure EagerResult where
  records : List Row
  keys : List String
  summary : ResultSummary

/-- Neo4jTimingMetrics (result.py lines 10-16). -/
structure Neo4jTimingMetrics where
  planning_time_ms : Int := 0
  processing_time_ms : Int := 0
  total_time_ms : Int := 0
  apoc_time_ms : Int := 0
deriving DecidableEq, Repr

/-- Neo4jWriteMetrics (result.py lines 18-31). -/
structure Neo4jWriteMetrics where
  nodes_created : Int := 0
  nodes_deleted : Int := 0
  relationships_created : Int := 0
  relationships_deleted : Int := 0
  properties_set : Int := 0
  labels_added : Int := 0
  labels_removed : Int := 0
  constraints_added : Int := 0
  constraints_removed : Int := 0
  indexes_added : Int := 0
  indexes_removed : Int := 0
deriving DecidableEq, Repr

/-- Neo4jQueryStatistics as observable from the verified code paths. -/
structure Neo4jQueryStatistics where
  query_type : String := "read"
  timing : Neo4jTimingMetrics := {}
  write_metrics : Neo4jWriteMetrics := {}
  is_apoc_query : Bool := false
  was_terminated : Bool := false
  retries : Int := 0

/-- Exception propagating out of obtain_query_statistics: a re-raised
dacite decoding error, or the AttributeError raised inside from_result.
The class ApocBatchResponse of query.py declares no attribute named
batch (nor operations), while result.py line 111 reads
apoc_response.batch.total on the APOC path, so that path raises
AttributeError("batch") whenever an APOC response was decoded. -/
inductive StatsError where
  | decode (e : DecodeErr)
  | attributeError (name : String)
deriving DecidableEq, Repr

/-- Neo4jQueryStatistics.from_result (result.py lines 71-156). The timing
block and the basic fields are set first; on the APOC branch the fields
of lines 101-107 are assigned and then line 111 accesses the nonexistent
attribute apoc_response.batch, raising AttributeError (the assignments
before the raise are discarded with the half-built object). On the
non-APOC branch the write metrics come from the summary counters. -/
def Neo4jQueryStatistics.from_result (summary : ResultSummary)
    (apoc_response : Option ApocBatchResponse) :
    Except StatsError Neo4jQueryStatistics :=
  let timing : Neo4jTimingMetrics :=
    { planning_time_ms := summary.result_available_after
      processing_time_ms := summary.result_consumed_after
      total_time_ms := summary.result_available_after + summary.result_consumed_after }
  match apoc_response with
  | some _ => Except.error (StatsError.attributeError "batch")
  | none =>
    Except.ok
      { query_type := summary.query_type
        timing := timing
        write_metrics :=
          { nodes_created := summary.counters.nodes_created
            nodes_deleted := summary.counters.nodes_deleted
            relationships_created := summary.counters.relationships_created
            relationships_deleted := summary.counters.relationships_deleted
            properties_set := summary.counters.properties_set
            labels_added := summary.counters.labels_added
            labels_removed := summary.counters.labels_removed
            constraints_added := summary.counters.constraints_added
            constraints_removed := summary.counters.constraints_removed
            indexes_added := summary.counters.indexes_added
            indexes_removed := summary.counters.indexes_removed } }

/-- Neo4jResult.obtain_query_statistics (result.py lines 169-181): when
the query is an APOC query and at least one record exists, decode the
first record through dacite; a decoding exception is logged and re-raised
as-is. Then build the consolidated statistics. -/
def obtain_query_statistics (query : Query) (result : EagerResult) :
    Except StatsError Neo4jQueryStatistics := do
  let apoc_response : Option ApocBatchResponse ←
    if query.is_apoc then
      match result.records with
      | [] => Except.ok none
      | r0 :: _ =>
        match from_dict_ApocBatchResponse r0 with
        | Except.ok resp => Except.ok (some resp)
        | Except.error e => Except.error (StatsError.decode e)
    else Except.ok none
  Neo4jQueryStatistics.from_result result.summary apoc_response

/-- Classifier: does an execute_in_transaction outcome consist of the
synthetic retries-exhausted exception of line 464? -/
def isRetriesExhausted {R : Type} (r : Except TxErr (List R)) : Bool :=
  match r with
  | Except.error (TxErr.exhausted _) => true
  | _ => false

/-- Concrete tracked session used by the concrete-input theorems. -/
def st0 : SessionState :=
  { id := "session_0", session := 1, database := none, created_at := 0
    status := SessionStatus.created, last_used_at := 0 }

/-- Concrete session manager with max_sessions 1 and one tracked session. -/
def mgr1 : EnhancedSessionManager :=
  { max_sessions := 1, sessions := [("session_0", st0)] }

/-- C6: for every retry count n, the backoff delay is
initial_delay * 2 ^ n under the EXPONENTIAL strategy,
initial_delay * (n + 1) under LINEAR and initial_delay under CONSTANT,
in each case clamped to max_delay; with EXPONENTIAL, initial_delay 1 and
max_delay 30, the delays for retry counts 0..5 are [1, 2, 4, 8, 16, 30]. -/
theorem C6_backoff_delay (m : EnhancedTransactionManager) (n : Nat) :
    (m._retry_config.strategy = RetryStrategy.exponential →
      m._get_retry_delay n =
        min (m._retry_config.initial_delay * (2 : Rat) ^ n) m._retry_config.max_delay) ∧
    (m._retry_config.strategy = RetryStrategy.linear →
      m._get_retry_delay n =
        min (m._retry_config.initial_delay * ((n : Rat) + 1)) m._retry_config.max_delay) ∧
    (m._retry_config.strategy = RetryStrategy.constant →
      m._get_retry_delay n =
        min m._retry_config.initial_delay m._retry_config.max_delay) ∧
    ([0, 1, 2, 3, 4, 5].map
        (EnhancedTransactionManager._get_retry_delay
          { _retry_config :=
              { strategy := RetryStrategy.exponential, max_retries := 3
                initial_delay := 1, max_delay := 30 } }) =
      [1, 2, 4, 8, 16, 30]) := by
  refine ⟨?_, ?_, ?_, ?_⟩
  · intro h
    simp [EnhancedTransactionManager._get_retry_delay, h]
  · intro h
    simp [EnhancedTransactionManager._get_retry_delay, h]
  · intro h
    simp [EnhancedTransactionManager._get_retry_delay, h]
  · norm_num [EnhancedTransactionManager._get_retry_delay, min_def]

/-- C6 witness: the strategy hypotheses of the delay theorem are each
dischargeable at a concrete configuration. -/
theorem C6_witness :
    (EnhancedTransactionManager._get_retry_delay
        { _retry_config :=
            { strategy := RetryStrategy.exponential, max_retries := 3
              initial_delay := 1, max_delay := 30 } } 5 = 30) ∧
    (EnhancedTransactionManager._get_retry_delay
        { _retry_config :=
            { strategy := RetryStrategy.linear, max_retries := 3
              initial_delay := 2, max_delay := 30 } } 3 = 8) ∧
    (EnhancedTransactionManager._get_retry_delay
        { _retry_config :=
            { strategy := RetryStrategy.constant, max_retries := 3
              initial_delay := 7, max_delay := 30 } } 4 = 7) := by
  refine ⟨?_, ?_, ?_⟩
  · have h := (C6_backoff_delay
      { _retry_config :=
          { strategy := RetryStrategy.exponential, max_retries := 3
            initial_delay := 1, max_delay := 30 } } 5).1 rfl
    rw [h]; norm_num [min_def]
  · have h := (C6_backoff_delay
      { _retry_config :=
          { strategy := RetryStrategy.linear, max_retries := 3
            initial_delay := 2, max_delay := 30 } } 3).2.1 rfl
    rw [h]; norm_num [min_def]
  · have h := (C6_backoff_delay
      { _retry_config :=
          { strategy := RetryStrategy.constant, max_retries := 3
            initial_delay := 7, max_delay := 30 } } 4).2.2.1 rfl
    rw [h]; norm_num [min_def]

/-- C5: for every key, record_failure appends the current time to that
key's failure list and prunes entries older than reset_timeout, and sets
the key's state to OPEN exactly when the pruned list's length reaches
failure_threshold (otherwise the state entry is untouched); can_execute
on an OPEN key returns true exactly when the key's most recent failure is
strictly older than half_open_timeout, in which case it transitions the
key to HALF_OPEN — a transition that happens once per open period: a
subsequent call finds the key HALF_OPEN, returns true by the half-open
rule and leaves the state HALF_OPEN; record_success empties the key's
failure list and sets its state to CLOSED. -/
theorem C5_circuit_breaker (cb : CircuitBreaker) (key : String) (now now2 : Int) :
    ((cb.record_failure key now).failures key =
      (cb.failures key ++ [now]).filter (fun f => now - f < cb.reset_timeout)) ∧
    ((cb.record_failure key now).state key =
      (if cb.failure_threshold ≤
          ((cb.failures key ++ [now]).filter
            (fun f => now - f < cb.reset_timeout)).length
        then some CBState.opened else cb.state key)) ∧
    ((cb.state key).getD CBState.closed = CBState.opened →
      (((cb.can_execute key now).1 = true ↔
          (∃ last, (cb.failures key).getLast? = some last ∧
            cb.half_open_timeout < now - last)) ∧
        ((cb.can_execute key now).1 = true →
          ((cb.can_execute key now).2.state key = some CBState.halfOpen ∧
            ((cb.can_execute key now).2.can_execute key now2).1 = true ∧
            ((cb.can_execute key now).2.can_execute key now2).2.state key =
              some CBState.halfOpen)))) ∧
    ((cb.record_success key).failures key = [] ∧
      (cb.record_success key).state key = some CBState.closed) := by
  refine ⟨?_, ?_, ?_, ?_, ?_⟩
  · simp [CircuitBreaker.record_failure, Function.update_same]
  · simp only [CircuitBreaker.record_failure]
    split
    · simp [Function.update_same]
    · rfl
  · intro hopen
    unfold CircuitBreaker.can_execute
    rw [hopen]
    cases hl : (cb.failures key).getLast? with
    | none =>
      simp
    | some last =>
      by_cases hto : cb.half_open_timeout < now - last
      · simp only [hl, if_pos hto]
        refine ⟨by simp [hto], ?_⟩
        intro _
        refine ⟨by simp [Function.update_same], ?_, ?_⟩
        · simp [Function.update_same]
        · simp [Function.update_same]
      · simp only [hl, if_neg hto]
        refine ⟨?_, ?_⟩
        · constructor
          · intro hfalse
            exact absurd hfalse (by simp)
          · rintro ⟨l, hlast, hgt⟩
            cases hlast
            exact absurd hgt hto
        · intro htrue
          exact absurd htrue (by simp)
  · simp [CircuitBreaker.record_success, Function.update_same]
  · simp [CircuitBreaker.record_success, Function.update_same]

/-- C5 witness: a key opened by one failure with threshold one, probed
after the half-open timeout, transitions to HALF_OPEN exactly once; a
record_success then closes it. -/
theorem C5_witness :
    ((({ failure_threshold := 1
         failures := Function.update (fun _ => []) "k" [(0 : Int)]
         state := Function.update (fun _ => none) "k"
           (some CBState.opened) } : CircuitBreaker).can_execute "k" 100).1 =
        true) ∧
    ((({ failure_threshold := 1
         failures := Function.update (fun _ => []) "k" [(0 : Int)]
         state := Function.update (fun _ => none) "k"
           (some CBState.opened) } : CircuitBreaker).can_execute "k" 100).2.state
        "k" = some CBState.halfOpen) := by
  have h := C5_circuit_breaker
    { failure_threshold := 1
      failures := Function.update (fun _ => []) "k" [(0 : Int)]
      state := Function.update (fun _ => none) "k" (some CBState.opened) }
    "k" 100 200
  have hopen := h.2.2.1 (by decide)
  refine ⟨?_, ?_⟩
  · exact hopen.1.mpr ⟨0, by decide, by decide⟩
  · exact (hopen.2 (hopen.1.mpr ⟨0, by decide, by decide⟩)).1

/-- C1 (evaluation of the code at the failing input): EnhancedSessionManager.
get_session performs no max_sessions check at all — the stored bound is
never read — so with max_sessions = 1 and one session already tracked, a
call whose driver session succeeds returns the new handle and tracks it:
afterwards two sessions are tracked, the first still present, and no
ResourceExhausted failure occurred (the method has no such failure path). -/
theorem C1_session_cap_not_enforced :
    (mgr1.get_session (Except.ok 2) "session_1" none 5).1 = Except.ok 2 ∧
    (mgr1.get_session (Except.ok 2) "session_1" none 5).2.sessions.length = 2 ∧
    ((mgr1.get_session (Except.ok 2) "session_1" none 5).2.sessions.map
      Prod.fst) = ["session_0", "session_1"] := by
  refine ⟨rfl, rfl, rfl⟩

/-- C8: close_session with a handle that is not (or no longer) tracked
returns the warning outcome and leaves the manager unchanged (no raise,
no change to the tracked count); for a tracked handle the entry is
removed from tracking regardless of whether the underlying close succeeds
(outcome CLOSED) or fails (outcome ERROR with the error string recorded);
under the invariant that distinct tracked entries never share a session
handle, a second close_session on the same handle is the warning no-op. -/
theorem C8_close_session (mgr : EnhancedSessionManager) (h : Nat)
    (res res2 : Except String Unit) :
    ((∀ p ∈ mgr.sessions, p.2.session ≠ h) →
      mgr.close_session h res = (CloseOutcome.unknown_warned, mgr)) ∧
    (∀ sid st,
      mgr.sessions.find? (fun p => p.2.session == h) = some (sid, st) →
      ((∀ p ∈ (mgr.close_session h res).2.sessions, p.1 ≠ sid) ∧
       (res = Except.ok () →
         (mgr.close_session h res).1 =
           CloseOutcome.ok_closed { st with status := SessionStatus.closed }) ∧
       (∀ e, res = Except.error e →
         (mgr.close_session h res).1 =
           CloseOutcome.raised e
             { st with status := SessionStatus.error
                       errors := st.errors ++ [e] }))) ∧
    ((∀ p ∈ mgr.sessions, ∀ q ∈ mgr.sessions,
        p.2.session = h → q.2.session = h → p.1 = q.1) →
      ∀ sid st,
        mgr.sessions.find? (fun p => p.2.session == h) = some (sid, st) →
        (mgr.close_session h res).2.close_session h res2 =
          (CloseOutcome.unknown_warned, (mgr.close_session h res).2)) := by
  have hsess : ∀ sid st,
      mgr.sessions.find? (fun p => p.2.session == h) = some (sid, st) →
      (mgr.close_session h res).2.sessions =
        mgr.sessions.filter (fun p => decide (p.1 ≠ sid)) := by
    intro sid st hfind
    unfold EnhancedSessionManager.close_session
    rw [hfind]
    cases res <;> rfl
  refine ⟨?_, ?_, ?_⟩
  · intro hnone
    have hfind : mgr.sessions.find? (fun p => p.2.session == h) = none := by
      rw [List.find?_eq_none]
      intro p hp
      simp only [beq_iff_eq]
      exact hnone p hp
    unfold EnhancedSessionManager.close_session
    rw [hfind]
  · intro sid st hfind
    refine ⟨?_, ?_, ?_⟩
    · intro p hp
      rw [hsess sid st hfind] at hp
      have := (List.mem_filter.mp hp).2
      simpa using this
    · intro hok
      subst hok
      unfold EnhancedSessionManager.close_session
      rw [hfind]
    · intro e herr
      subst herr
      unfold EnhancedSessionManager.close_session
      rw [hfind]
  · intro huniq sid st hfind
    have hmem : (sid, st) ∈ mgr.sessions := List.mem_of_find?_eq_some hfind
    have hst : st.session = h := by
      have := List.find?_some hfind
      simpa using this
    have hnone2 : (mgr.close_session h res).2.sessions.find?
        (fun p => p.2.session == h) = none := by
      rw [List.find?_eq_none]
      intro p hp
      rw [hsess sid st hfind] at hp
      have hpmem := (List.mem_filter.mp hp).1
      have hpne : p.1 ≠ sid := by
        have := (List.mem_filter.mp hp).2
        simpa using this
      simp only [beq_iff_eq]
      intro hph
      exact hpne (huniq p hpmem (sid, st) hmem hph hst)
    have key : ∀ mgr2 : EnhancedSessionManager,
        mgr2.sessions.find? (fun p => p.2.session == h) = none →
        mgr2.close_session h res2 = (CloseOutcome.unknown_warned, mgr2) := by
      intro mgr2 hm
      unfold EnhancedSessionManager.close_session
      rw [hm]
    exact key _ hnone2

/-- C8 witness: at the concrete one-session manager, closing an unknown
handle is a no-op, closing the tracked handle with a failing close yields
the ERROR outcome with the error recorded, and a double close on the
same handle warns instead of raising. -/
theorem C8_witness :
    (mgr1.close_session 99 (Except.ok ()) = (CloseOutcome.unknown_warned, mgr1)) ∧
    ((mgr1.close_session 1 (Except.error "boom")).1 =
      CloseOutcome.raised "boom"
        { st0 with status := SessionStatus.error, errors := ["boom"] }) ∧
    ((mgr1.close_session 1 (Except.ok ())).2.close_session 1 (Except.ok ()) =
      (CloseOutcome.unknown_warned, (mgr1.close_session 1 (Except.ok ())).2)) := by
  refine ⟨?_, ?_, ?_⟩
  · exact (C8_close_session mgr1 99 (Except.ok ()) (Except.ok ())).1
      (by decide)
  · have h := ((C8_close_session mgr1 1 (Except.error "boom")
      (Except.ok ())).2.1 "session_0" st0 (by decide)).2.2 "boom" rfl
    rw [h]
    rfl
  · exact (C8_close_session mgr1 1 (Except.ok ()) (Except.ok ())).2.2
      (by decide) "session_0" st0 (by decide)

/-- Monotonicity of the stopping index: it never precedes its start. -/
theorem stopIndex_ge {R : Type} (m : EnhancedTransactionManager)
    (attempt : Nat → Except PyException (List R)) :
    ∀ fuel start, start ≤ stopIndex m attempt start fuel := by
  intro fuel
  induction fuel with
  | zero => intro start; exact Nat.le_refl _
  | succ fuel ih =>
    intro start
    unfold stopIndex
    split
    · exact Nat.le_refl _
    · exact Nat.le_trans (Nat.le_succ start) (ih (start + 1))

/-- Minimality of the stopping index: every attempt strictly before it
fails the stop test. -/
theorem stopIndex_min {R : Type} (m : EnhancedTransactionManager)
    (attempt : Nat → Except PyException (List R)) :
    ∀ fuel start n, start ≤ n → n < stopIndex m attempt start fuel →
      stopAt m attempt n = false := by
  intro fuel
  induction fuel with
  | zero =>
    intro start n h1 h2
    unfold stopIndex at h2
    omega
  | succ fuel ih =>
    intro start n h1 h2
    unfold stopIndex at h2
    by_cases hs : stopAt m attempt start = true
    · rw [if_pos hs] at h2; omega
    · rw [if_neg hs] at h2
      rcases Nat.eq_or_lt_of_le h1 with he | hlt
      · subst he
        exact Bool.not_eq_true _ ▸ Bool.eq_false_iff.mpr hs
      · exact ih (start + 1) n hlt h2

/-- The stopping index either satisfies the stop test or ran out of fuel. -/
theorem stopIndex_stops {R : Type} (m : EnhancedTransactionManager)
    (attempt : Nat → Except PyException (List R)) :
    ∀ fuel start, stopAt m attempt (stopIndex m attempt start fuel) = true ∨
      stopIndex m attempt start fuel = start + fuel := by
  intro fuel
  induction fuel with
  | zero => intro start; right; rfl
  | succ fuel ih =>
    intro start
    unfold stopIndex
    by_cases hs : stopAt m attempt start = true
    · rw [if_pos hs]; left; exact hs
    · rw [if_neg hs]
      rcases ih (start + 1) with h | h
      · left; exact h
      · right; omega

/-- A started index satisfying the stop test is the stopping index. -/
theorem stopIndex_of_stopAt {R : Type} (m : EnhancedTransactionManager)
    (attempt : Nat → Except PyException (List R)) (fuel start : Nat)
    (hfuel : 1 ≤ fuel) (hs : stopAt m attempt start = true) :
    stopIndex m attempt start fuel = start := by
  cases fuel with
  | zero => omega
  | succ fuel => unfold stopIndex; rw [if_pos hs]

/-- The attempt with index max_retries always satisfies the stop test: a
success stops, and a failure there has no retry budget left. -/
theorem stopAt_max {R : Type} (m : EnhancedTransactionManager)
    (attempt : Nat → Except PyException (List R)) :
    stopAt m attempt m._retry_config.max_retries = true := by
  unfold stopAt
  cases attempt m._retry_config.max_retries <;> simp

/-- With the full fuel budget the stopping index lies within the budget
and satisfies the stop test. -/
theorem stopIndex_le_max {R : Type} (m : EnhancedTransactionManager)
    (attempt : Nat → Except PyException (List R)) :
    stopIndex m attempt 0 (m._retry_config.max_retries + 1) ≤
        m._retry_config.max_retries ∧
      stopAt m attempt
        (stopIndex m attempt 0 (m._retry_config.max_retries + 1)) = true := by
  set N := stopIndex m attempt 0 (m._retry_config.max_retries + 1) with hN
  have hle : N ≤ m._retry_config.max_retries := by
    by_contra hgt
    push_neg at hgt
    have hfalse : stopAt m attempt m._retry_config.max_retries = false :=
      stopIndex_min m attempt (m._retry_config.max_retries + 1) 0
        m._retry_config.max_retries (Nat.zero_le _) (by omega)
    have htrue := stopAt_max m attempt
    rw [hfalse] at htrue
    cases htrue
  refine ⟨hle, ?_⟩
  rcases stopIndex_stops m attempt (m._retry_config.max_retries + 1) 0 with h | h
  · exact h
  · omega

/-- While the breaker key stays in the (default) closed state, the
can_execute guard of the transaction loop never answers false: the
blocked-branch counter is untouched. -/
theorem txLoop_blocked_hits {R : Type} (m : EnhancedTransactionManager)
    (attempt : Nat → Except PyException (List R)) (monOn : Bool)
    (key : String) (tm : Nat → Int) :
    ∀ fuel retries cb cnt,
      (cb.state key).getD CBState.closed = CBState.closed →
      (txLoop m attempt monOn key tm retries fuel cb cnt).2.2.blocked_hits =
        cnt.blocked_hits := by
  intro fuel
  induction fuel with
  | zero =>
    intro retries cb cnt hc
    rfl
  | succ fuel ih =>
    intro retries cb cnt hc
    have hce : cb.can_execute key (tm retries) = (true, cb) := by
      unfold CircuitBreaker.can_execute
      rw [hc]
    unfold txLoop
    rw [hce]
    simp only
    cases hA : attempt retries with
    | ok rs =>
      cases monOn <;> simp [hA]
    | error e =>
      cases hsr : (decide (retries < m._retry_config.max_retries) &&
          m._should_retry e) with
      | true =>
        simp only [hA, hsr, if_true]
        rw [ih (retries + 1) cb _ hc]
        cases monOn <;> rfl
      | false =>
        cases monOn <;> simp [hsr]

/-- The transaction loop never reaches the retries-exhausted fallback of
line 462: a failing attempt with index max_retries is treated as
non-retryable, so the loop always returns before the while guard fails. -/
theorem txLoop_no_exhausted {R : Type} (m : EnhancedTransactionManager)
    (attempt : Nat → Except PyException (List R)) (monOn : Bool)
    (key : String) (tm : Nat → Int) :
    ∀ fuel retries cb cnt,
      retries + fuel = m._retry_config.max_retries + 1 →
      retries ≤ m._retry_config.max_retries →
      isRetriesExhausted
        (txLoop m attempt monOn key tm retries fuel cb cnt).1 = false := by
  intro fuel
  induction fuel with
  | zero =>
    intro retries cb cnt hfuel hret
    omega
  | succ fuel ih =>
    intro retries cb cnt hfuel hret
    unfold txLoop
    simp only
    set ce := cb.can_execute key (tm retries) with hce
    cases hc : ce.1 with
    | true =>
      simp only [hc, if_true]
      cases hA : attempt retries with
      | ok rs => rfl
      | error e =>
        cases hsr : (decide (retries < m._retry_config.max_retries) &&
            m._should_retry e) with
        | true =>
          simp only [hsr, if_true]
          have hlt : retries < m._retry_config.max_retries := by
            have := (Bool.and_eq_true _ _).mp hsr
            exact of_decide_eq_true this.1
          exact ih (retries + 1) ce.2 _ (by omega) (by omega)
        | false =>
          simp [hsr, isRetriesExhausted]
    | false =>
      cases hsr : (decide (retries < m._retry_config.max_retries) &&
          m._should_retry blockedExc) with
      | true =>
        have hlt : retries < m._retry_config.max_retries := by
          have := (Bool.and_eq_true _ _).mp hsr
          exact of_decide_eq_true this.1
        simp [hsr]
        exact ih (retries + 1) ce.2 _ (by omega) (by omega)
      | false =>
        simp [hsr, isRetriesExhausted]

/-- Characterization of the transaction loop with monitoring enabled and
the breaker key in the default closed state: the loop performs the
attempts in order up to the stopping index; a success there is returned
as the result list with the committed counter bumped once and one
rollback recorded per failed attempt before it, and a failure there is
re-raised as the original exception with a rollback recorded for it too. -/
theorem txLoop_characterize {R : Type} (m : EnhancedTransactionManager)
    (attempt : Nat → Except PyException (List R)) (key : String)
    (tm : Nat → Int) :
    ∀ fuel retries cb cnt,
      retries + fuel = m._retry_config.max_retries + 1 →
      retries ≤ m._retry_config.max_retries →
      (cb.state key).getD CBState.closed = CBState.closed →
      (match attempt (stopIndex m attempt retries fuel) with
       | Except.ok rs =>
         (txLoop m attempt true key tm retries fuel cb cnt).1 = Except.ok rs ∧
         (txLoop m attempt true key tm retries fuel cb
             cnt).2.2.transactions_committed =
           cnt.transactions_committed + 1 ∧
         (txLoop m attempt true key tm retries fuel cb
             cnt).2.2.transactions_rolled_back =
           cnt.transactions_rolled_back +
             (stopIndex m attempt retries fuel - retries)
       | Except.error e =>
         (txLoop m attempt true key tm retries fuel cb cnt).1 =
           Except.error (TxErr.orig e) ∧
         (txLoop m attempt true key tm retries fuel cb
             cnt).2.2.transactions_committed =
           cnt.transactions_committed ∧
         (txLoop m attempt true key tm retries fuel cb
             cnt).2.2.transactions_rolled_back =
           cnt.transactions_rolled_back +
             (stopIndex m attempt retries fuel - retries) + 1) := by
  intro fuel
  induction fuel with
  | zero =>
    intro retries cb cnt hfuel hret hclosed
    omega
  | succ fuel ih =>
    intro retries cb cnt hfuel hret hclosed
    have hce : cb.can_execute key (tm retries) = (true, cb) := by
      unfold CircuitBreaker.can_execute
      rw [hclosed]
    cases hA : attempt retries with
    | ok rs =>
      have hstop : stopAt m attempt retries = true := by
        unfold stopAt; rw [hA]
      have hN : stopIndex m attempt retries (fuel + 1) = retries := by
        unfold stopIndex; rw [if_pos hstop]
      rw [hN, hA]
      refine ⟨?_, ?_, ?_⟩ <;> simp [txLoop, hce, hA]
    | error e =>
      cases hsr : (decide (retries < m._retry_config.max_retries) &&
          m._should_retry e) with
      | false =>
        have hstop : stopAt m attempt retries = true := by
          unfold stopAt; rw [hA]; simp [hsr]
        have hN : stopIndex m attempt retries (fuel + 1) = retries := by
          unfold stopIndex; rw [if_pos hstop]
        rw [hN, hA]
        refine ⟨?_, ?_, ?_⟩ <;> simp [txLoop, hce, hA, hsr]
      | true =>
        have hstop : stopAt m attempt retries = false := by
          unfold stopAt; rw [hA]; simp [hsr]
        have hN : stopIndex m attempt retries (fuel + 1) =
            stopIndex m attempt (retries + 1) fuel := by
          conv_lhs => unfold stopIndex
          rw [if_neg (by simp [hstop])]
        have hlt : retries < m._retry_config.max_retries := by
          have := (Bool.and_eq_true _ _).mp hsr
          exact of_decide_eq_true this.1
        have hstep : txLoop m attempt true key tm retries (fuel + 1) cb cnt =
            txLoop m attempt true key tm (retries + 1) fuel cb
              { cnt with transactions_rolled_back :=
                  cnt.transactions_rolled_back + 1 } := by
          simp [txLoop, hce, hA, hsr]
        have hge := stopIndex_ge m attempt fuel (retries + 1)
        have ihh := ih (retries + 1) cb
          { cnt with transactions_rolled_back :=
              cnt.transactions_rolled_back + 1 }
          (by omega) (by omega) hclosed
        rw [hN, hstep]
        cases hA2 : attempt (stopIndex m attempt (retries + 1) fuel) with
        | ok rs =>
          rw [hA2] at ihh
          refine ⟨ihh.1, ?_, ?_⟩
          · rw [ihh.2.1]
          · rw [ihh.2.2]
            simp only
            omega
        | error e2 =>
          rw [hA2] at ihh
          refine ⟨ihh.1, ?_, ?_⟩
          · rw [ihh.2.1]
          · rw [ihh.2.2]
            simp only
            omega

/-- C2 counterexample: with the default configuration (max_retries 3) and
a stub failing every attempt with a retryable (transient) error, the call
exhausts its retries and raises the LAST UNDERLYING ERROR itself, not the
synthetic retries-exhausted exception: the claim that exhaustion raises
RetriesExhausted carrying the last error is false on the code (the
fallback of line 464 is unreachable and carries no underlying error). -/
theorem C2_counterexample :
    ((@EnhancedTransactionManager.execute_in_transaction Nat {}
        (fun _ => Except.error { message := "boom", transient := true })
        true "transaction_t" (fun _ => 0) {} none).1.1 =
      Except.error (TxErr.orig { message := "boom", transient := true })) ∧
    (isRetriesExhausted
      (@EnhancedTransactionManager.execute_in_transaction Nat {}
        (fun _ => Except.error { message := "boom", transient := true })
        true "transaction_t" (fun _ => 0) {} none).1.1 = false) := by
  exact ⟨rfl, rfl⟩

/-- C2 (amended): in execute_in_transaction every failing attempt is
retried exactly when retries < max_retries and the error matches a
retryable error kind or carries a configured retryable substring (all
attempts before the stopping index are such failures); a non-retryable
failure is propagated as-is as the original exception; and when the retry
budget is exhausted the final attempt's error is itself re-raised as-is —
the synthetic retries-exhausted exception is never produced. -/
theorem C2_retry_decision {R : Type} (m : EnhancedTransactionManager)
    (attempt : Nat → Except PyException (List R)) (key : String)
    (tm : Nat → Int) (cb : CircuitBreaker)
    (hfresh : cb.state key = none) :
    (∀ n, n < stopIndex m attempt 0 (m._retry_config.max_retries + 1) →
      ∃ e, attempt n = Except.error e ∧ n < m._retry_config.max_retries ∧
        m._should_retry e = true) ∧
    (match attempt (stopIndex m attempt 0 (m._retry_config.max_retries + 1)) with
     | Except.ok rs =>
       (m.execute_in_transaction attempt true key tm cb none).1.1 =
         Except.ok rs
     | Except.error e =>
       (m.execute_in_transaction attempt true key tm cb none).1.1 =
         Except.error (TxErr.orig e) ∧
       ¬(stopIndex m attempt 0 (m._retry_config.max_retries + 1) <
            m._retry_config.max_retries ∧ m._should_retry e = true)) ∧
    (isRetriesExhausted
      (m.execute_in_transaction attempt true key tm cb none).1.1 = false) := by
  have hclosed : (cb.state key).getD CBState.closed = CBState.closed := by
    rw [hfresh]; rfl
  have hchar := txLoop_characterize m attempt key tm
    (m._retry_config.max_retries + 1) 0 cb {} (by omega) (Nat.zero_le _) hclosed
  refine ⟨?_, ?_, ?_⟩
  · intro n hn
    have hstop := stopIndex_min m attempt (m._retry_config.max_retries + 1) 0 n
      (Nat.zero_le _) hn
    unfold stopAt at hstop
    cases hA : attempt n with
    | ok rs =>
      rw [hA] at hstop
      simp at hstop
    | error e =>
      rw [hA] at hstop
      have hstop2 : (decide (n < m._retry_config.max_retries) &&
          m._should_retry e) = true := by
        simpa using hstop
      have hand := (Bool.and_eq_true _ _).mp hstop2
      exact ⟨e, rfl, of_decide_eq_true hand.1, hand.2⟩
  · cases hA2 : attempt (stopIndex m attempt 0
        (m._retry_config.max_retries + 1)) with
    | ok rs =>
      rw [hA2] at hchar
      exact hchar.1
    | error e =>
      rw [hA2] at hchar
      refine ⟨hchar.1, ?_⟩
      have hsa := (stopIndex_le_max m attempt).2
      unfold stopAt at hsa
      rw [hA2] at hsa
      have hsa2 : m._retry_config.max_retries ≤
          stopIndex m attempt 0 (m._retry_config.max_retries + 1) ∨
          m._should_retry e = false := by
        simpa using hsa
      rintro ⟨hlt, hsh⟩
      rcases hsa2 with hcase | hcase
      · omega
      · rw [hsh] at hcase
        cases hcase
  · exact txLoop_no_exhausted m attempt true key tm
      (m._retry_config.max_retries + 1) 0 cb {} (by omega) (Nat.zero_le _)

/-- C2 witness: with the default configuration, a stub failing once with
a transient error and then succeeding returns the success result, and the
retries-exhausted shape never appears. -/
theorem C2_witness :
    ((@EnhancedTransactionManager.execute_in_transaction Nat {}
        (fun n => if n = 0 then Except.error { message := "t", transient := true }
          else Except.ok [5])
        true "k" (fun _ => 0) {} none).1.1 = Except.ok [5]) ∧
    (isRetriesExhausted
      (@EnhancedTransactionManager.execute_in_transaction Nat {}
        (fun n => if n = 0 then Except.error { message := "t", transient := true }
          else Except.ok [5])
        true "k" (fun _ => 0) {} none).1.1 = false) := by
  have h := C2_retry_decision {}
    (fun n => if n = 0 then Except.error { message := "t", transient := true }
      else Except.ok [5]) "k" (fun _ => 0) {} rfl
  have hN : stopIndex {}
      (fun n => if n = 0 then
        Except.error ({ message := "t", transient := true } : PyException)
        else Except.ok ([5] : List Nat)) 0
      (EnhancedTransactionManager._retry_config {}).max_retries.succ = 1 := by
    decide
  refine ⟨?_, h.2.2⟩
  have h2 := h.2.1
  rw [hN] at h2
  exact h2

/-- C4: with max_retries 3, monitoring enabled and a fresh breaker key,
a stub that fails twice with retryable errors and then succeeds makes
execute_in_transaction return the success result, with the session's
transactions_rolled_back counter at 2 and transactions_committed at 1. -/
theorem C4_two_failures_then_success {R : Type} (m : EnhancedTransactionManager)
    (attempt : Nat → Except PyException (List R)) (key : String)
    (tm : Nat → Int) (cb : CircuitBreaker) (e0 e1 : PyException) (rs : List R)
    (hmax : m._retry_config.max_retries = 3)
    (h0 : attempt 0 = Except.error e0) (h1 : attempt 1 = Except.error e1)
    (hr0 : m._should_retry e0 = true) (hr1 : m._should_retry e1 = true)
    (h2 : attempt 2 = Except.ok rs) (hfresh : cb.state key = none) :
    (m.execute_in_transaction attempt true key tm cb none).1.1 = Except.ok rs ∧
    (m.execute_in_transaction attempt true key tm cb
      none).1.2.2.transactions_rolled_back = 2 ∧
    (m.execute_in_transaction attempt true key tm cb
      none).1.2.2.transactions_committed = 1 := by
  have hclosed : (cb.state key).getD CBState.closed = CBState.closed := by
    rw [hfresh]; rfl
  have hs0 : stopAt m attempt 0 = false := by
    unfold stopAt; rw [h0]; simp [hr0, hmax]
  have hs1 : stopAt m attempt 1 = false := by
    unfold stopAt; rw [h1]; simp [hr1, hmax]
  have hs2 : stopAt m attempt 2 = true := by
    unfold stopAt; rw [h2]
  have hN : stopIndex m attempt 0 (m._retry_config.max_retries + 1) = 2 := by
    rw [hmax]
    conv_lhs => unfold stopIndex
    rw [if_neg (by simp [hs0])]
    conv_lhs => unfold stopIndex
    rw [if_neg (by simp [hs1])]
    conv_lhs => unfold stopIndex
    rw [if_pos hs2]
  have hchar := txLoop_characterize m attempt key tm
    (m._retry_config.max_retries + 1) 0 cb {} (by omega) (Nat.zero_le _) hclosed
  rw [hN, h2] at hchar
  exact ⟨hchar.1, hchar.2.2, hchar.2.1⟩

/-- C4 witness: concrete stub failing twice with transient errors then
succeeding with [7], under the default configuration (max_retries 3). -/
theorem C4_witness :
    ((@EnhancedTransactionManager.execute_in_transaction Nat {}
        (fun n => if n = 0 then Except.error { message := "a", transient := true }
          else if n = 1 then Except.error { message := "b", transient := true }
          else Except.ok [7])
        true "k" (fun _ => 0) {} none).1.1 = Except.ok [7]) ∧
    ((@EnhancedTransactionManager.execute_in_transaction Nat {}
        (fun n => if n = 0 then Except.error { message := "a", transient := true }
          else if n = 1 then Except.error { message := "b", transient := true }
          else Except.ok [7])
        true "k" (fun _ => 0) {} none).1.2.2.transactions_rolled_back = 2) ∧
    ((@EnhancedTransactionManager.execute_in_transaction Nat {}
        (fun n => if n = 0 then Except.error { message := "a", transient := true }
          else if n = 1 then Except.error { message := "b", transient := true }
          else Except.ok [7])
        true "k" (fun _ => 0) {} none).1.2.2.transactions_committed = 1) :=
  C4_two_failures_then_success {}
    (fun n => if n = 0 then Except.error { message := "a", transient := true }
      else if n = 1 then Except.error { message := "b", transient := true }
      else Except.ok [7])
    "k" (fun _ => 0) {} { message := "a", transient := true }
    { message := "b", transient := true } [7]
    rfl rfl rfl (by decide) (by decide) rfl rfl

/-- C9: passing a truthy (nonempty) retry_on_errors list to one
execute_in_transaction call overwrites the manager-wide
retry_config.retry_on_strings in place, so a later call on the resulting
manager that passes none retries on the earlier caller's substrings: an
error matching only the new list is retried (the call succeeds on the
second attempt), while the same call on the original manager propagates
that error without retrying. -/
theorem C9_retry_on_errors_persists {R : Type} (m : EnhancedTransactionManager)
    (attempt1 attempt2 : Nat → Except PyException (List R)) (monOn1 : Bool)
    (key1 key2 : String) (tm : Nat → Int) (cb1 cb2 : CircuitBreaker)
    (l : List String) (e : PyException) (rs : List R)
    (hl : l ≠ [])
    (hfresh2 : cb2.state key2 = none)
    (hmax : 1 ≤ m._retry_config.max_retries)
    (htype : m._retry_config.error_types.any (fun t => t e) = false)
    (hnew : l.any (fun s => strIn s e.message) = true)
    (hold : m._retry_config.retry_on_strings.any
      (fun s => strIn s e.message) = false)
    (ha0 : attempt2 0 = Except.error e) (ha1 : attempt2 1 = Except.ok rs) :
    ((m.execute_in_transaction attempt1 monOn1 key1 tm cb1
        (some l)).2._retry_config.retry_on_strings = l) ∧
    (((m.execute_in_transaction attempt1 monOn1 key1 tm cb1
        (some l)).2.execute_in_transaction attempt2 true key2 tm cb2
          none).1.1 = Except.ok rs) ∧
    ((m.execute_in_transaction attempt2 true key2 tm cb2 none).1.1 =
      Except.error (TxErr.orig e)) := by
  have hle : l.isEmpty = false := by
    cases l with
    | nil => exact absurd rfl hl
    | cons a as => rfl
  have hclosed2 : (cb2.state key2).getD CBState.closed = CBState.closed := by
    rw [hfresh2]; rfl
  have hm1 : (m.execute_in_transaction attempt1 monOn1 key1 tm cb1
      (some l)).2 =
      { m with _retry_config :=
          { m._retry_config with retry_on_strings := l } } := by
    unfold EnhancedTransactionManager.execute_in_transaction
    simp [hle]
  refine ⟨?_, ?_, ?_⟩
  · rw [hm1]
  · rw [hm1]
    set m1 : EnhancedTransactionManager :=
      { m with _retry_config :=
          { m._retry_config with retry_on_strings := l } } with hm1def
    have hshould : m1._should_retry e = true := by
      unfold EnhancedTransactionManager._should_retry
      have het : m1._retry_config.error_types =
          m._retry_config.error_types := rfl
      have hrs : m1._retry_config.retry_on_strings = l := rfl
      rw [het, hrs, htype, hnew]
      rfl
    have hmax1 : m1._retry_config.max_retries =
        m._retry_config.max_retries := rfl
    have hs0 : stopAt m1 attempt2 0 = false := by
      unfold stopAt
      rw [ha0]
      simp [hshould, hmax1]
      omega
    have hs1 : stopAt m1 attempt2 1 = true := by
      unfold stopAt; rw [ha1]
    have hN : stopIndex m1 attempt2 0
        (m1._retry_config.max_retries + 1) = 1 := by
      conv_lhs => unfold stopIndex
      rw [if_neg (by simp [hs0])]
      exact stopIndex_of_stopAt m1 attempt2 _ 1 (by rw [hmax1]; omega) hs1
    have hchar := txLoop_characterize m1 attempt2 key2 tm
      (m1._retry_config.max_retries + 1) 0 cb2 {} (by omega) (Nat.zero_le _)
      hclosed2
    rw [hN, ha1] at hchar
    exact hchar.1
  · have hshouldm : m._should_retry e = false := by
      unfold EnhancedTransactionManager._should_retry
      rw [htype, hold]
      rfl
    have hs0m : stopAt m attempt2 0 = true := by
      unfold stopAt
      rw [ha0]
      simp [hshouldm]
    have hNm : stopIndex m attempt2 0
        (m._retry_config.max_retries + 1) = 0 :=
      stopIndex_of_stopAt m attempt2 _ 0 (by omega) hs0m
    have hchar := txLoop_characterize m attempt2 key2 tm
      (m._retry_config.max_retries + 1) 0 cb2 {} (by omega) (Nat.zero_le _)
      hclosed2
    rw [hNm, ha0] at hchar
    exact hchar.1

/-- C9 witness: a first call passing retry_on_errors ["my-err"] makes a
later plain call retry an error whose message contains "my-err" (which
the original default configuration would not retry). -/
theorem C9_witness :
    (((@EnhancedTransactionManager.execute_in_transaction Nat {}
        (fun _ => Except.ok []) true "k1" (fun _ => 0) {}
        (some ["my-err"])).2._retry_config.retry_on_strings = ["my-err"]) ∧
    (((@EnhancedTransactionManager.execute_in_transaction Nat {}
        (fun _ => Except.ok []) true "k1" (fun _ => 0) {}
        (some ["my-err"])).2.execute_in_transaction
        (fun n => if n = 0 then
            Except.error { message := "my-err occurred", transient := false }
          else Except.ok [3])
        true "k2" (fun _ => 0) {} none).1.1 = Except.ok [3]) ∧
    ((@EnhancedTransactionManager.execute_in_transaction Nat {}
        (fun n => if n = 0 then
            Except.error { message := "my-err occurred", transient := false }
          else Except.ok [3])
        true "k2" (fun _ => 0) {} none).1.1 =
      Except.error (TxErr.orig
        { message := "my-err occurred", transient := false }))) :=
  C9_retry_on_errors_persists {} (fun _ => Except.ok [])
    (fun n => if n = 0 then
        Except.error { message := "my-err occurred", transient := false }
      else Except.ok [3])
    true "k1" "k2" (fun _ => 0) {} {} ["my-err"]
    { message := "my-err occurred", transient := false } [3]
    (by decide) rfl (by decide) (by decide) (by decide) (by decide) rfl rfl

/-- C10: the circuit-breaker guard inside execute_in_transaction can
never block: because the breaker key embeds a transaction id freshly
generated for the call (the key is absent from the breaker state) and
record_failure on that key is always immediately followed by raising out
of the function, can_execute answers true on every loop iteration, for
every attempt behaviour, monitoring setting and retry_on_errors
argument — the blocked-branch counter stays at zero. -/
theorem C10_blocked_branch_unreachable {R : Type}
    (m : EnhancedTransactionManager)
    (attempt : Nat → Except PyException (List R)) (monOn : Bool)
    (key : String) (tm : Nat → Int) (cb : CircuitBreaker)
    (retry_on_errors : Option (List String))
    (hfresh : cb.state key = none) :
    (m.execute_in_transaction attempt monOn key tm cb
      retry_on_errors).1.2.2.blocked_hits = 0 := by
  have hclosed : (cb.state key).getD CBState.closed = CBState.closed := by
    rw [hfresh]; rfl
  cases retry_on_errors with
  | none =>
    exact txLoop_blocked_hits m attempt monOn key tm _ 0 cb {} hclosed
  | some l =>
    exact txLoop_blocked_hits _ attempt monOn key tm _ 0 cb {} hclosed

/-- C10 witness: at a concrete always-failing stub with a fresh key, the
blocked-branch counter reads zero. -/
theorem C10_witness :
    (@EnhancedTransactionManager.execute_in_transaction Nat {}
      (fun _ => Except.error { message := "x", transient := false })
      true "transaction_t" (fun _ => 0) {} none).1.2.2.blocked_hits = 0 :=
  C10_blocked_branch_unreachable {}
    (fun _ => Except.error { message := "x", transient := false })
    true "transaction_t" (fun _ => 0) {} none rfl

/-- C3 counterexample: on an APOC (batch-protocol) query whose first row
is the empty dictionary — every required bulk-iteration field missing —
the dacite decode SUCCEEDS, returning the fully defaulted (all-zero)
ApocBatchResponse instead of raising a MalformedBatchResponse (no such
exception type exists in the code); what obtain_query_statistics then
raises is an AttributeError from accessing the nonexistent
apoc_response.batch attribute, unrelated to the missing fields. -/
theorem C3_counterexample :
    (from_dict_ApocBatchResponse [] =
      Except.ok ({} : ApocBatchResponse)) ∧
    (obtain_query_statistics
      { query_statement := "q", is_apoc := true }
      { records := [[]], keys := []
        summary := { result_available_after := 30, result_consumed_after := 70
                     query_type := "w", counters := {} } } =
      Except.error (StatsError.attributeError "batch")) := by
  exact ⟨rfl, rfl⟩

/-- C3 (amended): the decoder fills every missing field of the first row
with the dataclass default (zero / empty / false) — any row carrying none
of the ten declared field names decodes successfully to the all-default
response; only a present field with a mismatched type (here: a string
where the int field batches is expected) makes the decode raise, and
obtain_query_statistics re-raises exactly that decoding error; and
whenever the decode succeeds on a batch-protocol result with at least one
row, the statistics construction itself raises an AttributeError (the
response type has no batch attribute), so zero-valued statistics are
never RETURNED — but through a crash, not through field validation. -/
theorem C3_decode_defaults (row : Row) (q : Query)
    (rest2 rest3 : List Row) (s : String) (row2 row3 : Row)
    (resp : ApocBatchResponse)
    (hb : row.lookup "batches" = none)
    (ht : row.lookup "total" = none)
    (htt : row.lookup "timeTaken" = none)
    (hco : row.lookup "committedOperations" = none)
    (hfo : row.lookup "failedOperations" = none)
    (hfb : row.lookup "failedBatches" = none)
    (hre : row.lookup "retries" = none)
    (hem : row.lookup "errorMessages" = none)
    (hwt : row.lookup "wasTerminated" = none)
    (hus : row.lookup "updateStatistics" = none)
    (hq : q.is_apoc = true)
    (hrow2 : row2.lookup "batches" = some (JValue.str s))
    (hdec3 : from_dict_ApocBatchResponse row3 = Except.ok resp) :
    (from_dict_ApocBatchResponse row = Except.ok ({} : ApocBatchResponse)) ∧
    (∀ res2 : EagerResult, res2.records = row2 :: rest2 →
      obtain_query_statistics q res2 =
        Except.error (StatsError.decode (DecodeErr.wrong_type "batches"))) ∧
    (∀ res3 : EagerResult, res3.records = row3 :: rest3 →
      obtain_query_statistics q res3 =
        Except.error (StatsError.attributeError "batch")) := by
  have hdef : from_dict_ApocBatchResponse row =
      Except.ok ({} : ApocBatchResponse) := by
    unfold from_dict_ApocBatchResponse
    simp [getIntField, getDictField, getBoolField, hb, ht, htt, hco, hfo,
      hfb, hre, hem, hwt, hus]
    rfl
  have herr2 : from_dict_ApocBatchResponse row2 =
      Except.error (DecodeErr.wrong_type "batches") := by
    unfold from_dict_ApocBatchResponse
    simp only [getIntField, hrow2]
    rfl
  refine ⟨hdef, ?_, ?_⟩
  · intro res2 hrec2
    unfold obtain_query_statistics
    rw [hq, hrec2]
    simp only [herr2]
    rfl
  · intro res3 hrec3
    unfold obtain_query_statistics
    rw [hq, hrec3]
    simp only [hdec3]
    rfl

/-- C3 witness: concrete inputs discharging the amended statement — an
unrelated-keys row decodes to the all-default response, and a decodable
first row makes obtain_query_statistics raise the attribute error. -/
theorem C3_witness :
    (from_dict_ApocBatchResponse [("something_else", JValue.int 9)] =
      Except.ok ({} : ApocBatchResponse)) ∧
    (obtain_query_statistics
      { query_statement := "q", is_apoc := true }
      { records := [[("batches", JValue.str "oops")]], keys := []
        summary := { result_available_after := 1, result_consumed_after := 2
                     query_type := "w", counters := {} } } =
      Except.error (StatsError.decode (DecodeErr.wrong_type "batches"))) ∧
    (obtain_query_statistics
      { query_statement := "q", is_apoc := true }
      { records := [[("batches", JValue.int 3)]], keys := []
        summary := { result_available_after := 1, result_consumed_after := 2
                     query_type := "w", counters := {} } } =
      Except.error (StatsError.attributeError "batch")) := by
  have h := C3_decode_defaults [("something_else", JValue.int 9)]
    { query_statement := "q", is_apoc := true }
    [] [] "oops" [("batches", JValue.str "oops")] [("batches", JValue.int 3)]
    { batches := 3 }
    rfl rfl rfl rfl rfl rfl rfl rfl rfl rfl rfl rfl rfl
  exact ⟨h.1,
    h.2.1 { records := [[("batches", JValue.str "oops")]], keys := []
            summary := { result_available_after := 1, result_consumed_after := 2
                         query_type := "w", counters := {} } } rfl,
    h.2.2 { records := [[("batches", JValue.int 3)]], keys := []
            summary := { result_available_after := 1, result_consumed_after := 2
                         query_type := "w", counters := {} } } rfl⟩

/-- All-success run of the chunk loop: every chunk is executed once, in
order, and the trace extends by exactly the enumerated chunk list. -/
theorem runChunks_ok {α R : Type} (exec : Nat → List α → Except PyException R) :
    ∀ (chunks : List (List α)) (i : Nat) (acc : List R)
      (tr : List (Nat × List α)),
      (∀ p ∈ chunks.enumFrom i, ∃ r, exec p.1 p.2 = Except.ok r) →
      ∃ rs, runChunks exec i chunks acc tr =
        (Except.ok rs, tr ++ chunks.enumFrom i) := by
  intro chunks
  induction chunks with
  | nil =>
    intro i acc tr hok
    exact ⟨acc.reverse, by simp [runChunks]⟩
  | cons c rest ih =>
    intro i acc tr hok
    obtain ⟨r, hr⟩ := hok (i, c) (by simp [List.enumFrom])
    have hrest : ∀ p ∈ rest.enumFrom (i + 1), ∃ r2, exec p.1 p.2 =
        Except.ok r2 := by
      intro p hp
      exact hok p (by simp [List.enumFrom, hp])
    obtain ⟨rs, hrs⟩ := ih (i + 1) (r :: acc) (tr ++ [(i, c)]) hrest
    refine ⟨rs, ?_⟩
    unfold runChunks
    rw [hr]
    simpa [List.enumFrom] using hrs

/-- Failing run of the chunk loop: the chunks before the failing one are
executed in order, the failing chunk is executed, the error propagates,
and no later chunk is executed (the trace stops at the failing chunk). -/
theorem runChunks_fail {α R : Type} (exec : Nat → List α → Except PyException R)
    (e : PyException) :
    ∀ (pre : List (List α)) (c : List α) (rest : List (List α)) (i : Nat)
      (acc : List R) (tr : List (Nat × List α)),
      (∀ p ∈ pre.enumFrom i, ∃ r, exec p.1 p.2 = Except.ok r) →
      exec (i + pre.length) c = Except.error e →
      runChunks exec i (pre ++ c :: rest) acc tr =
        (Except.error e, tr ++ (pre ++ [c]).enumFrom i) := by
  intro pre
  induction pre with
  | nil =>
    intro c rest i acc tr hok hfail
    have hfail2 : exec i c = Except.error e := by simpa using hfail
    unfold runChunks
    simp only [List.nil_append]
    rw [hfail2]
    simp [List.enumFrom]
  | cons p ps ih =>
    intro c rest i acc tr hok hfail
    obtain ⟨r, hr⟩ := hok (i, p) (by simp [List.enumFrom])
    have hok2 : ∀ q ∈ ps.enumFrom (i + 1), ∃ r2, exec q.1 q.2 =
        Except.ok r2 := by
      intro q hq
      exact hok q (by simp [List.enumFrom, hq])
    have hfail2 : exec ((i + 1) + ps.length) c = Except.error e := by
      have harith : (i + 1) + ps.length = i + (p :: ps).length := by
        simp only [List.length_cons]
        omega
      rw [harith]
      exact hfail
    have hrec := ih c rest (i + 1) (r :: acc) (tr ++ [(i, p)]) hok2 hfail2
    unfold runChunks
    simp only [List.cons_append]
    rw [hr]
    simpa [List.enumFrom] using hrec

/-- The chunk slices of execute_batch concatenate back to the batch:
items and order are preserved and the chunks are contiguous. -/
theorem execute_batch_chunks_flatten {α : Type} (b : Nat) (hb : 0 < b) :
    ∀ (n : Nat) (l : List α), l.length ≤ n →
      (execute_batch_chunks l b).flatten = l := by
  intro n
  induction n with
  | zero =>
    intro l hl
    have hnil : l = [] := List.eq_nil_of_length_eq_zero (by omega)
    subst hnil
    simp [execute_batch_chunks, Nat.div_eq_of_lt (by omega : 0 + b - 1 < b)]
  | succ n ih =>
    intro l hl
    cases l with
    | nil =>
      simp [execute_batch_chunks, Nat.div_eq_of_lt (by omega : 0 + b - 1 < b)]
    | cons a t =>
      simp only [List.length_cons] at hl
      simp only [execute_batch_chunks, List.length_cons]
      by_cases hsmall : t.length + 1 ≤ b
      · have hK : (t.length + 1 + b - 1) / b = 1 :=
          Nat.div_eq_of_lt_le (by omega) (by omega)
        rw [hK]
        simp only [List.range_succ_eq_map, List.range_zero, List.map_nil,
          List.map_cons, List.flatten, Nat.zero_mul, List.drop_zero,
          List.append_nil]
        exact List.take_of_length_le
          (show (a :: t).length ≤ b by simp only [List.length_cons]; omega)
      · push_neg at hsmall
        have hK : (t.length + 1 + b - 1) / b = t.length / b + 1 := by
          have h1 : t.length + 1 + b - 1 = t.length + b := by omega
          rw [h1, Nat.add_div_right _ hb]
        have ihd := ih ((a :: t).drop b)
          (by simp only [List.length_drop, List.length_cons]; omega)
        have hKdrop : (((a :: t).drop b).length + b - 1) / b =
            t.length / b := by
          simp only [List.length_drop, List.length_cons]
          congr 1
          omega
        simp only [execute_batch_chunks] at ihd
        rw [hKdrop] at ihd
        rw [hK, List.range_succ_eq_map]
        simp only [List.map_cons, List.map_map, List.flatten, Nat.zero_mul,
          List.drop_zero]
        have hcomp : ((fun i => ((a :: t).drop (i * b)).take b) ∘ Nat.succ) =
            fun i => ((a :: t).drop ((i + 1) * b)).take b := by
          funext i
          rfl
        have hfun : ((List.range (t.length / b)).map
            (fun i => ((a :: t).drop ((i + 1) * b)).take b)) =
            ((List.range (t.length / b)).map
            (fun i => (((a :: t).drop b).drop (i * b)).take b)) := by
          apply List.map_congr_left
          intro i _
          rw [List.drop_drop]
          congr 1
          rw [Nat.add_mul, Nat.one_mul, Nat.add_comm]
        rw [hcomp, hfun, ihd]
        exact List.take_append_drop b (a :: t)

/-- C7: for every batch and every batch_size b larger than zero,
execute_batch issues ceil(n over b) statement executions — the chunk list
has exactly that length, every chunk has at most b items, and the chunks
concatenate back to the batch, preserving items and order; when every
chunk executes successfully the chunks are executed strictly in input
order, once each; and a failure on any chunk stops execution at that
chunk (no later chunk is issued) and propagates the original error. -/
theorem C7_execute_batch {α R : Type} (batch : List α) (b : Nat)
    (exec : Nat → List α → Except PyException R) (hb : 0 < b) :
    ((execute_batch_chunks batch b).length = (batch.length + b - 1) / b ∧
     batch.length ≤ b * (execute_batch_chunks batch b).length ∧
     b * (execute_batch_chunks batch b).length < batch.length + b ∧
     (∀ c ∈ execute_batch_chunks batch b, c.length ≤ b) ∧
     (execute_batch_chunks batch b).flatten = batch) ∧
    ((∀ p ∈ (execute_batch_chunks batch b).enumFrom 0,
        ∃ r, exec p.1 p.2 = Except.ok r) →
      ∃ rs, execute_batch batch b exec =
        (Except.ok rs, (execute_batch_chunks batch b).enumFrom 0)) ∧
    (∀ pre c rest e, execute_batch_chunks batch b = pre ++ c :: rest →
      (∀ p ∈ pre.enumFrom 0, ∃ r, exec p.1 p.2 = Except.ok r) →
      exec pre.length c = Except.error e →
      execute_batch batch b exec =
        (Except.error e, (pre ++ [c]).enumFrom 0)) := by
  have hlen : (execute_batch_chunks batch b).length =
      (batch.length + b - 1) / b := by
    simp [execute_batch_chunks]
  refine ⟨⟨hlen, ?_, ?_, ?_, ?_⟩, ?_, ?_⟩
  · rw [hlen]
    have hdm := Nat.div_add_mod (batch.length + b - 1) b
    have hml := Nat.mod_lt (batch.length + b - 1) hb
    omega
  · rw [hlen]
    have hdm := Nat.div_add_mod (batch.length + b - 1) b
    have hml := Nat.mod_lt (batch.length + b - 1) hb
    omega
  · intro c hc
    simp only [execute_batch_chunks, List.mem_map] at hc
    obtain ⟨i, _, rfl⟩ := hc
    simp [List.length_take]
  · exact execute_batch_chunks_flatten b hb batch.length batch (Nat.le_refl _)
  · intro hok
    obtain ⟨rs, hrs⟩ := runChunks_ok exec (execute_batch_chunks batch b)
      0 [] [] hok
    refine ⟨rs, ?_⟩
    unfold execute_batch
    rw [hrs]
    simp
  · intro pre c rest e hsplit hok hfail
    have hrun := runChunks_fail exec e pre c rest 0 [] [] hok
      (by simpa using hfail)
    unfold execute_batch
    rw [hsplit, hrun]
    simp

/-- C7 witness: a five-item batch with batch_size two yields the three
chunks [1,2], [3,4], [5]; an always-succeeding executor runs them all in
order, and an executor failing on the second chunk stops there. -/
theorem C7_witness :
    ((execute_batch_chunks [1, 2, 3, 4, 5] 2).flatten = [1, 2, 3, 4, 5]) ∧
    (∃ rs : List Nat,
      execute_batch [1, 2, 3, 4, 5] 2 (fun _ _ => Except.ok 0) =
        (Except.ok rs, (execute_batch_chunks [1, 2, 3, 4, 5] 2).enumFrom 0)) ∧
    (execute_batch [1, 2, 3, 4, 5] 2
        (fun i _ => if i = 0 then Except.ok 0
          else Except.error { message := "f", transient := false }) =
      (Except.error { message := "f", transient := false },
        [(0, [1, 2]), (1, [3, 4])])) := by
  have h := C7_execute_batch [1, 2, 3, 4, 5] 2 (fun _ _ => Except.ok (0 : Nat))
    (by decide)
  have h2 := C7_execute_batch [1, 2, 3, 4, 5] 2
    (fun i _ => if i = 0 then Except.ok (0 : Nat)
      else Except.error { message := "f", transient := false }) (by decide)
  refine ⟨h.1.2.2.2.2, h.2.1 (fun p _ => ⟨0, rfl⟩), ?_⟩
  have h3 := h2.2.2 [[1, 2]] [3, 4] [[5]]
    { message := "f", transient := false } (by decide)
    (fun p hp => by
      simp [List.enumFrom] at hp
      subst hp
      exact ⟨0, rfl⟩)
    rfl
  rw [h3]
  simp [List.enumFrom]

end N4J
